import Mathlib

/-!
# Verification of the stock-analysis orchestrator

Shallow embedding of the AI analysis core of the repository:

* `backend/app/services/ai/processor.py` — `process_actor_analysis`
  (rate limiting, retry, model fallback) and `generate_conclusion`;
* `backend/app/services/ai/analyzer.py` — `StockAnalyzer.analyze_stock`,
  `validate_params` and the conversation-history update;
* `backend/app/utils/progress.py` — `ProgressManager`.

Python dicts of JSON messages are embedded as the inductive type `Ev`
(one constructor per `json.dumps` site, carrying the fields the proofs
need; free-form Chinese text payloads are kept only where a claim
mentions them).  External HTTP responses are abstracted as an oracle
`Nat → ApiResp` consumed one entry per request.  `asyncio.sleep` calls
for retry backoff and the rate-limiter entry block are recorded in
instrumentation fields (`sleeps`, `acquires`, `attempts`,
`fallbackSteps`) that do not feed back into the computed messages or
results.

The retry recursions of `process_actor_analysis` and
`generate_conclusion` omit the `fallback_model_index` argument, which
therefore resets to its default `-1`; under persistently retryable
responses those recursions genuinely do not terminate, so their
embeddings are indexed by a `fuel` bound on the recursion depth
(`none` — respectively a `false` completion flag — meaning the
computation has not finished within that depth; the value is otherwise
independent of any sufficiently large `fuel`).
-/

namespace StockApp

/-! ## Constants (processor.py lines 17-33) -/

/-- `REQUEST_LIMIT = 3` (processor.py line 18). -/
def REQUEST_LIMIT : ℕ := 3

/-- `REQUEST_INTERVAL = 60 / REQUEST_LIMIT` (processor.py line 19), in seconds. -/
def REQUEST_INTERVAL : ℚ := 60 / REQUEST_LIMIT

/-- `MAX_RETRIES = 3` (processor.py line 22). -/
def MAX_RETRIES : ℕ := 3

/-- `RETRY_DELAY = 2` seconds (processor.py line 23). -/
def RETRY_DELAY : ℕ := 2

/-- `FALLBACK_MODELS` (processor.py lines 26-30). -/
def FALLBACK_MODELS : List String :=
  ["deepseek/deepseek-chat:free",
   "google/gemini-exp-1206:free",
   "google/gemini-2.0-flash-lite-preview-02-05:free"]

/-! ## Provider responses and error classification (processor.py lines 264-283) -/

/-- A JSON `error.code` field: the provider may send a string or a number
(the code compares it both with `"auth_required"` and with `400`). -/
inductive ErrCode
  | str (s : String)
  | num (n : Int)
deriving DecidableEq, Repr

/-- The `error` object of a well-formed failure response:
`error_msg = error_obj.get("message", "未知错误")`,
`error_type = error_obj.get("type", "unknown")`,
`error_code = error_obj.get("code", "")` (processor.py lines 266-269). -/
structure ErrObj where
  message : String := "未知错误"
  etype : String := "unknown"
  code : ErrCode := .str ""
deriving DecidableEq, Repr

/-- Character-list prefix test (used to embed Python's `in` on strings). -/
def charsPrefix : List Char → List Char → Bool
  | [], _ => true
  | _ :: _, [] => false
  | a :: as, b :: bs => a == b && charsPrefix as bs

/-- Character-list substring test. -/
def charsSub (needle : List Char) : List Char → Bool
  | [] => charsPrefix needle []
  | c :: t => charsPrefix needle (c :: t) || charsSub needle t

/-- Python `needle in hay` on strings. -/
def strContains (hay needle : String) : Bool :=
  charsSub needle.data hay.data

/-- Python `str.lower()` (ASCII case folding, which covers every string
the classification is applied to; `String.toLower` itself is not
kernel-reducible). -/
def strLower (s : String) : String :=
  ⟨s.data.map Char.toLower⟩

/-- Authentication-failure classification (processor.py line 275):
`"auth" in error_msg.lower() or error_type == "authentication_error"
or error_code == "auth_required"`. -/
def isAuthError (e : ErrObj) : Bool :=
  strContains (strLower e.message) "auth" || e.etype == "authentication_error"
    || e.code == .str "auth_required"

/-- Provider-error classification (processor.py line 283):
`"provider" in error_msg.lower() or error_code == 400`. -/
def isProviderError (e : ErrObj) : Bool :=
  strContains (strLower e.message) "provider" || e.code == .num 400

/-- Outcome of one `requests.post` to the chat-completion endpoint:
success with content, a well-formed error object, a body that fails
`response.json()` (`ValueError`), or a raised exception. -/
inductive ApiResp
  | ok (content : String)
  | err (e : ErrObj)
  | parseFail
  | exn (msg : String)
deriving DecidableEq, Repr

/-- A response that triggers the retry/fallback path: a well-formed error
that is not auth-classified and is provider-classified. -/
def isRetryableResp : ApiResp → Prop
  | .err e => isAuthError e = false ∧ isProviderError e = true
  | _ => False

instance : DecidablePred isRetryableResp := by
  intro r; cases r <;> simp [isRetryableResp] <;> infer_instance

/-! ## Progress events

One constructor per `json.dumps` site of `analyzer.py` and
`processor.py`; the `"type"` field is recovered by `etype`. -/

/-- The `"type"` tag of an emitted JSON message. -/
inductive EvType
  | info
  | warning
  | error
  | progress
  | retry
  | fallback
  | analysis
  | conclusion
  | complete
  | apiRequest
deriving DecidableEq, Repr

/-- Emitted JSON messages, one constructor per emission site. -/
inductive Ev
  -- analyzer.validate_params
  | errorNoActors                                  -- "至少需要一个分析角色" (error)
  | startInfo (stockName stockCode : String)       -- "开始分析 ..." (info)
  -- analyzer.analyze_stock round loop
  | roundStart (round : Nat)                       -- "开始第N轮分析..." (info)
  | actorCompleted (actor : String) (round i : Nat) -- "... 完成第N轮分析" (info)
  | actorTimeout (actor : String)                  -- "...分析超时，已跳过" (error)
  | laterRoundNoResults (round : Nat)              -- "第N轮分析未产生结果，使用之前的结果继续" (warning)
  | firstRoundNoResults                            -- "第一轮分析未产生结果，分析终止" (warning)
  | roundTransition (round : Nat)                  -- "第N轮分析完成，准备开始..." (info)
  | conclusionGenerationStart                      -- "开始生成最终综合结论..." (info)
  | conclusionTimeout                              -- "综合结论生成超时..." (error)
  | completeAfterTimeout                           -- "分析已完成(但结论生成超时)" (complete)
  | completeNormal                                 -- "分析已完成" (complete)
  -- processor.process_actor_analysis messages
  | skipNoActorOrModel                             -- "警告: 角色或模型未指定,跳过" (warning)
  | skipNoPrompt (actor : String)                  -- "警告: 未找到角色...的提示词,跳过" (warning)
  | usingModel (actor model : String)              -- "正在使用M进行A分析..." (progress)
  | promptReady (actor : String)                   -- "已准备A分析提示词..." (info)
  | apiRequestStart (actor model : String)         -- "开始请求M API..." (info)
  | apiRequestDetails (actor model : String)       -- "A分析API请求详情" (api_request)
  | apiRequestComplete (actor : String)            -- "A分析API请求完成..." (info)
  | retryNotice (actor : String) (n : Nat)         -- "...正在进行第n次重试..." (retry)
  | fallbackNotice (actor origModel fbModel : String) -- "...正在尝试备用模型..." (fallback)
  | analysisResult (actor content model : String)  -- the analysis payload (analysis)
  | actorError (actor detail : String)             -- "A分析出错: ..." (error)
  | actorParseError (actor : String)               -- "A分析出错: 无法解析API响应" (error)
  | actorExnError (actor msg : String)             -- "A分析出错: {e}" (error)
  -- processor.generate_conclusion yields
  | conclusionStart                                -- "开始生成综合结论..." (info)
  | conclusionResult (content model : String)      -- the conclusion payload (conclusion)
  | conclusionRetryNotice (n : Nat)                -- "结论生成...第n次重试..." (retry)
  | conclusionFallbackNotice (origModel fbModel : String) -- (fallback)
  | conclusionError (detail : String)              -- "生成结论出错: ..." (error)
  | conclusionParseError                           -- "生成结论出错: 无法解析API响应" (error)
  | conclusionExnError (msg : String)              -- "生成结论出错: {e}" (error)
  | conclusionComplete (totalActors : Nat)         -- "分析完成,总共分析了N个角色" (complete)
deriving DecidableEq, Repr

/-- Whether an event is a round-start info event (the analyzer's
"开始第N轮分析..." message, one per executed round). -/
def isRoundStartEv : Ev → Bool
  | .roundStart _ => true
  | _ => false

/-- The `"type"` field written at each emission site. -/
def etype : Ev → EvType
  | .errorNoActors => .error
  | .startInfo _ _ => .info
  | .roundStart _ => .info
  | .actorCompleted _ _ _ => .info
  | .actorTimeout _ => .error
  | .laterRoundNoResults _ => .warning
  | .firstRoundNoResults => .warning
  | .roundTransition _ => .info
  | .conclusionGenerationStart => .info
  | .conclusionTimeout => .error
  | .completeAfterTimeout => .complete
  | .completeNormal => .complete
  | .skipNoActorOrModel => .warning
  | .skipNoPrompt _ => .warning
  | .usingModel _ _ => .progress
  | .promptReady _ => .info
  | .apiRequestStart _ _ => .info
  | .apiRequestDetails _ _ => .apiRequest
  | .apiRequestComplete _ => .info
  | .retryNotice _ _ => .retry
  | .fallbackNotice _ _ _ => .fallback
  | .analysisResult _ _ _ => .analysis
  | .actorError _ _ => .error
  | .actorParseError _ => .error
  | .actorExnError _ _ => .error
  | .conclusionStart => .info
  | .conclusionResult _ _ => .conclusion
  | .conclusionRetryNotice _ => .retry
  | .conclusionFallbackNotice _ _ => .fallback
  | .conclusionError _ => .error
  | .conclusionParseError => .error
  | .conclusionExnError _ => .error
  | .conclusionComplete _ => .complete

/-! ## `process_actor_analysis` (processor.py lines 35-375)

The function is driven by a response oracle `resp : Nat → ApiResp`
(`resp attempt` is what the `attempt`-th `requests.post` of this logical
call produces) and a role-prompt lookup `rp : String → Bool`
(`actor in ROLE_PROMPTS`; the template text itself does not influence
any claim).  `rlog` is `reduced_logging`.  `retry` is `retry_count`,
`fb` is `fallback_model_index` (an `int` starting at `-1`). -/

/-- Result of `process_actor_analysis`: the returned dict
(`actor`/`content` present only on success, plus `messages`), together
with instrumentation of the recursion: `attempts` records
`(model, retry_count)` at each invocation in order, `fallbackSteps`
records `(original_model, fallback_model)` for each fallback recursion,
`sleeps` the retry-backoff `asyncio.sleep` durations in seconds, and
`acquires` the number of rate-limiter entry blocks executed
(processor.py lines 60-68; one per invocation).  The inter-actor pacing
sleep of the `finally` block (0.5s) is not recorded. -/
structure ActorRes where
  actor : Option String := none
  content : Option String := none
  messages : List Ev := []
  attempts : List (String × Nat) := []
  fallbackSteps : List (String × String) := []
  sleeps : List ℕ := []
  acquires : ℕ := 0
deriving DecidableEq, Repr

/-- The duplicate-skipping fallback-model selection
(processor.py lines 305-314): starting from `fallback_model_index = fb`,
returns the updated `next_fallback_index` and `fallback_model`.  If the
first candidate equals the model just tried, the index advances once
more; when that overflows the list the candidate is left unchanged (the
caller then refuses to recurse). -/
def fbSkip (model : String) (fb : Int) : Int × String :=
  let next1 : Int := fb + 1
  let fbm1 := FALLBACK_MODELS.getD next1.toNat ""
  if model == fbm1 then
    let next2 : Int := next1 + 1
    (next2,
      if (FALLBACK_MODELS.length : Int) ≤ next2 then fbm1
      else FALLBACK_MODELS.getD next2.toNat "")
  else (next1, fbm1)

/-- Terminal error text `"AI服务提供商暂时不可用，已尝试所有可用选项"`
(processor.py line 337), the detail reaching the error event once retries
and fallbacks are exhausted. -/
def exhaustedDetail : String := "AI服务提供商暂时不可用，已尝试所有可用选项"

/-- Auth-failure detail `"API认证失败，请检查OpenRouter API密钥是否有效"`
(processor.py lines 276, 517). -/
def authDetail : String := "API认证失败，请检查OpenRouter API密钥是否有效"

/-- `process_actor_analysis` (processor.py lines 35-375).  Notable
faithful details: the auth branch (lines 275-277) only sets
`error_detail` and logs — the `messages.append` of the error event
(line 339) sits inside the non-auth `else`, so an auth failure returns
with no error event; retry (lines 285-302) and fallback (lines 304-335)
recursions `return` the recursive result directly, so the caller's
`messages` list (including the just-appended retry/fallback notice) is
discarded; the retry recursion (lines 298-302) passes
`retry_count=next_retry` but omits `fallback_model_index`, which
therefore resets to its default `-1` — as a consequence the recursion
does not terminate under persistently retryable responses, and the
embedding carries a `fuel` bound on the recursion depth, returning
`none` when the call has not returned within that depth. -/
def processActor (fuel : Nat) (resp : Nat → ApiResp) (rp : String → Bool) (rlog : Bool)
    (actor model : String) (attempt retry : Nat) (fb : Int) : Option ActorRes :=
  match fuel with
  | 0 => none
  | f + 1 =>
    -- rate-limiter entry block (lines 60-68): recorded in `acquires`
    if actor == "" || model == "" then
      some { messages := [.skipNoActorOrModel], attempts := [(model, retry)], acquires := 1 }
    else if !(rp actor) then
      some { messages := [.skipNoPrompt actor], attempts := [(model, retry)], acquires := 1 }
    else
      match resp attempt with
      | .exn m =>
          some { messages := [.usingModel actor model]
                   ++ (if !rlog then [.promptReady actor, .apiRequestStart actor model] else [])
                   ++ [.apiRequestDetails actor model]
                   ++ [.actorExnError actor m],
                 attempts := [(model, retry)], acquires := 1 }
      | .parseFail =>
          some { messages := [.usingModel actor model]
                   ++ (if !rlog then [.promptReady actor, .apiRequestStart actor model] else [])
                   ++ [.apiRequestDetails actor model]
                   ++ [.apiRequestComplete actor, .actorParseError actor],
                 attempts := [(model, retry)], acquires := 1 }
      | .ok c =>
          some { actor := some actor, content := some c,
                 messages := [.usingModel actor model]
                   ++ (if !rlog then [.promptReady actor, .apiRequestStart actor model] else [])
                   ++ [.apiRequestDetails actor model]
                   ++ [.apiRequestComplete actor, .analysisResult actor c model],
                 attempts := [(model, retry)], acquires := 1 }
      | .err e =>
          if isAuthError e then
            -- lines 275-277: `error_detail` is set and `logger.critical` runs,
            -- but no message is appended (the append at line 339 is in the else)
            some { messages := [.usingModel actor model]
                     ++ (if !rlog then [.promptReady actor, .apiRequestStart actor model] else [])
                     ++ [.apiRequestDetails actor model]
                     ++ [.apiRequestComplete actor],
                   attempts := [(model, retry)], acquires := 1 }
          else if isProviderError e then
            if retry < MAX_RETRIES then
              -- lines 298-302: `fallback_model_index` is omitted from the
              -- recursive call, so it resets to the default -1
              (processActor f resp rp rlog actor model (attempt + 1) (retry + 1) (-1)).map
                fun r => { r with attempts := (model, retry) :: r.attempts,
                                  sleeps := RETRY_DELAY * (retry + 1) :: r.sleeps,
                                  acquires := r.acquires + 1 }
            else if fb < (FALLBACK_MODELS.length : Int) - 1 then
              if (fbSkip model fb).1 < (FALLBACK_MODELS.length : Int) then
                (processActor f resp rp rlog actor (fbSkip model fb).2 (attempt + 1) 0
                    (fbSkip model fb).1).map
                  fun r => { r with attempts := (model, retry) :: r.attempts,
                                    fallbackSteps := (model, (fbSkip model fb).2) :: r.fallbackSteps,
                                    acquires := r.acquires + 1 }
              else
                some { messages := [.usingModel actor model]
                         ++ (if !rlog then [.promptReady actor, .apiRequestStart actor model] else [])
                         ++ [.apiRequestDetails actor model]
                         ++ [.apiRequestComplete actor, .actorError actor exhaustedDetail],
                       attempts := [(model, retry)], acquires := 1 }
            else
              some { messages := [.usingModel actor model]
                       ++ (if !rlog then [.promptReady actor, .apiRequestStart actor model] else [])
                       ++ [.apiRequestDetails actor model]
                       ++ [.apiRequestComplete actor, .actorError actor exhaustedDetail],
                     attempts := [(model, retry)], acquires := 1 }
          else
            some { messages := [.usingModel actor model]
                     ++ (if !rlog then [.promptReady actor, .apiRequestStart actor model] else [])
                     ++ [.apiRequestDetails actor model]
                     ++ [.apiRequestComplete actor, .actorError actor e.message],
                   attempts := [(model, retry)], acquires := 1 }

/-! ## `generate_conclusion` (processor.py lines 377-611) -/

/-- The falsy-model default of `generate_conclusion`
(processor.py lines 424-425): a missing or empty `conclusion_model`
is replaced by `"deepseek/deepseek-chat:free"`. -/
def resolveConclusionModel (cm : Option String) : String :=
  if cm.getD "" == "" then "deepseek/deepseek-chat:free" else cm.getD ""

/-- `generate_conclusion` (processor.py lines 377-611), as the list of
yielded messages paired with a completion flag.  `nResults` is
`len(results)` (only the count reaches an event); `cm` is the
`conclusion_model` argument.  Faithful details: a falsy model (None or
`""`) is replaced by `"deepseek/deepseek-chat:free"` (lines 424-425); on
retry/fallback (lines 524-575) the yielded messages of the recursive
invocation are all forwarded and the `return` skips this frame's
trailing complete event; every non-recursing path falls through to the
unconditional complete yield (lines 606-611); unlike
`process_actor_analysis`, the auth branch here does reach the error
yield at line 579, which sits outside the auth/else split; the retry
recursion (lines 538-543) passes `retry_count=next_retry` but omits
`fallback_model_index`, which therefore resets to its default `-1` — as
a consequence the generator does not terminate under persistently
retryable responses, and the embedding carries a `fuel` bound on the
recursion depth: the first component is the list of messages yielded
within that depth, the second is `true` iff the generator ran to
completion within it. -/
def genConclusion (fuel : Nat) (resp : Nat → ApiResp) (rlog : Bool) (nResults : Nat)
    (cm : Option String) (attempt retry : Nat) (fb : Int) : List Ev × Bool :=
  match fuel with
  | 0 => ([], false)
  | f + 1 =>
    match resp attempt with
    | .exn m => ([.conclusionStart, .conclusionExnError m, .conclusionComplete nResults], true)
    | .parseFail => ([.conclusionStart, .conclusionParseError, .conclusionComplete nResults], true)
    | .ok c => ([.conclusionStart, .conclusionResult c (resolveConclusionModel cm),
                 .conclusionComplete nResults], true)
    | .err e =>
        if isAuthError e then
          ([.conclusionStart, .conclusionError authDetail, .conclusionComplete nResults], true)
        else if isProviderError e then
          if retry < MAX_RETRIES then
            -- lines 538-543: `fallback_model_index` is omitted from the
            -- recursive call, so it resets to the default -1
            (Ev.conclusionStart :: Ev.conclusionRetryNotice (retry + 1) ::
               (genConclusion f resp rlog nResults (some (resolveConclusionModel cm))
                 (attempt + 1) (retry + 1) (-1)).1,
             (genConclusion f resp rlog nResults (some (resolveConclusionModel cm))
               (attempt + 1) (retry + 1) (-1)).2)
          else if fb < (FALLBACK_MODELS.length : Int) - 1 then
            if (fbSkip (resolveConclusionModel cm) fb).1 < (FALLBACK_MODELS.length : Int) then
              (Ev.conclusionStart :: Ev.conclusionFallbackNotice (resolveConclusionModel cm)
                   (fbSkip (resolveConclusionModel cm) fb).2 ::
                 (genConclusion f resp rlog nResults
                   (some (fbSkip (resolveConclusionModel cm) fb).2)
                   (attempt + 1) 0 (fbSkip (resolveConclusionModel cm) fb).1).1,
               (genConclusion f resp rlog nResults
                 (some (fbSkip (resolveConclusionModel cm) fb).2)
                 (attempt + 1) 0 (fbSkip (resolveConclusionModel cm) fb).1).2)
            else
              ([.conclusionStart, .conclusionError exhaustedDetail,
                .conclusionComplete nResults], true)
          else
            ([.conclusionStart, .conclusionError exhaustedDetail,
              .conclusionComplete nResults], true)
        else
          ([.conclusionStart, .conclusionError e.message, .conclusionComplete nResults], true)

/-! ## `StockAnalyzer.analyze_stock` (analyzer.py lines 16-237)

The awaited `process_actor_analysis` call of each actor slot (wrapped in
`asyncio.wait_for(..., timeout=200)`, lines 76-87) is abstracted by an
oracle `outcome : Nat → Nat → Option ActorRes`: `outcome n i` is `none`
when the call for round `n`, roster position `i` raises
`asyncio.TimeoutError`, and `some r` when it returns the dict `r`
(`processActor` describes how such dicts arise).  The conclusion phase's
`asyncio.timeout(360)` block is abstracted by `ConclOutcome`. -/

/-- One roster entry `{actor, model}` (an `ActorAssignment`). -/
structure Assignment where
  actor : String
  model : String
deriving DecidableEq, Repr

/-- Python truthiness of `result and result.get("content")`
(analyzer.py line 90): the returned dict is always non-empty, so this is
the truthiness of the `content` field (present and non-empty). -/
def contentTruthy (r : ActorRes) : Bool :=
  match r.content with
  | some c => c != ""
  | none => false

/-- The body of the inner actor loop, over the remaining
`enumerate(active_actors)` entries.  A timeout slot contributes one
error event and no result; a returned dict contributes its `messages`,
then the actor-completed info event, and is collected iff its content
is truthy. -/
def runRoundAux (outcome : Nat → Nat → Option ActorRes) (n : Nat) :
    List (Nat × Assignment) → List Ev × List ActorRes
  | [] => ([], [])
  | (i, a) :: rest =>
      let tail := runRoundAux outcome n rest
      match outcome n i with
      | some r =>
          (r.messages ++ [.actorCompleted a.actor n i] ++ tail.1,
           (if contentTruthy r then [r] else []) ++ tail.2)
      | none => (Ev.actorTimeout a.actor :: tail.1, tail.2)

/-- The inner actor loop of one round (analyzer.py lines 66-113,
`for i, actor_data in enumerate(active_actors)`): events yielded and
successful results collected, in roster order. -/
def runRound (outcome : Nat → Nat → Option ActorRes) (active : List Assignment)
    (n : Nat) : List Ev × List ActorRes :=
  runRoundAux outcome n active.enum

/-- `f"【第{round_num}轮 - {r['actor']}的观点】\n{r['content']}"`
(analyzer.py line 134). -/
def fmtOpinion (n : Nat) (r : ActorRes) : String :=
  "【第" ++ toString n ++ "轮 - " ++ r.actor.getD "" ++ "的观点】\n" ++ r.content.getD ""

/-- `new_opinions` (analyzer.py lines 133-136). -/
def newOpinions (n : Nat) (rs : List ActorRes) : String :=
  String.intercalate "\n\n" (rs.map (fmtOpinion n))

/-- The conversation-history update (analyzer.py lines 138-142): round 1
replaces the history with the new opinions, later rounds append them
after a blank-line separator. -/
def histUpdate (n : Nat) (h : String) (rs : List ActorRes) : String :=
  if n == 1 then newOpinions 1 rs else h ++ "\n\n" ++ newOpinions n rs

/-- The conversation history visible to round `n + 1` (equivalently: the
history after `n` rounds of the update at analyzer.py lines 132-142),
where `rounds m` is the list of successful results of round `m`. -/
def historyAt (rounds : Nat → List ActorRes) : Nat → String
  | 0 => ""
  | n + 1 => histUpdate (n + 1) (historyAt rounds n) (rounds (n + 1))

/-- The multi-round loop of `analyze_stock` (analyzer.py lines 55-153),
from round `n` to round `maxRounds`, carrying `all_round_results` and
`conversation_history`.  Returns the events yielded from round `n` on,
the final `all_round_results`, the final history, and whether the
first-round-failure `return` (lines 125-130) fired. -/
def roundLoop (outcome : Nat → Nat → Option ActorRes) (active : List Assignment)
    (maxRounds n : Nat) (allRes : List ActorRes) (hist : String) :
    List Ev × List ActorRes × String × Bool :=
  if h : maxRounds < n then ([], allRes, hist, false)
  else
    if (runRound outcome active n).2.isEmpty
        && !(allRes ++ (runRound outcome active n).2).isEmpty then
      -- lines 119-123: warning, then continue with prior results
      (Ev.roundStart n :: (runRound outcome active n).1 ++ [.laterRoundNoResults n]
          ++ (if n < maxRounds then [.roundTransition n] else [])
          ++ (roundLoop outcome active maxRounds (n + 1)
                (allRes ++ (runRound outcome active n).2)
                (histUpdate n hist (runRound outcome active n).2)).1,
       (roundLoop outcome active maxRounds (n + 1)
          (allRes ++ (runRound outcome active n).2)
          (histUpdate n hist (runRound outcome active n).2)).2)
    else if (runRound outcome active n).2.isEmpty
        && (allRes ++ (runRound outcome active n).2).isEmpty && n == 1 then
      -- lines 125-130: warning, then `return`
      (Ev.roundStart n :: (runRound outcome active n).1 ++ [.firstRoundNoResults],
       allRes ++ (runRound outcome active n).2, hist, true)
    else
      (Ev.roundStart n :: (runRound outcome active n).1
          ++ (if n < maxRounds then [.roundTransition n] else [])
          ++ (roundLoop outcome active maxRounds (n + 1)
                (allRes ++ (runRound outcome active n).2)
                (histUpdate n hist (runRound outcome active n).2)).1,
       (roundLoop outcome active maxRounds (n + 1)
          (allRes ++ (runRound outcome active n).2)
          (histUpdate n hist (runRound outcome active n).2)).2)
termination_by maxRounds + 1 - n
decreasing_by
  · omega
  · omega

/-- How the `asyncio.timeout(360)` block around the conclusion stream
(analyzer.py lines 177-198) resolves; each constructor carries the
recursion-depth budget `fuel` under which `genConclusion`'s stream is
unrolled.  `finished fuel`: the whole stream is consumed without
timeout; `timedOut fuel k`: the timeout cancels it after `k` of its
messages were forwarded. -/
inductive ConclOutcome
  | finished (fuel : Nat)
  | timedOut (fuel k : Nat)
deriving DecidableEq, Repr

/-- `active_actors` (analyzer.py lines 44-45): roster entries whose actor
tag is not the `conclusion_model` sentinel. -/
def activeOf (actors : List Assignment) : List Assignment :=
  actors.filter (fun a => a.actor != "conclusion_model")

/-- The `conclusion_model` resolution (analyzer.py lines 160-169): the
sentinel entry's model if present, else — when that is missing or falsy
and there are active actors — the first active actor's model. -/
def conclusionModelOf (actors : List Assignment) : Option String :=
  let fromSentinel := (actors.find? (fun a => a.actor == "conclusion_model")).map (·.model)
  if fromSentinel.getD "" == "" && !(activeOf actors).isEmpty then
    some ((activeOf actors).headD ⟨"", ""⟩).model
  else fromSentinel

/-- `StockAnalyzer.analyze_stock` (analyzer.py lines 16-204) as the list
of yielded messages.  `validate_params` (lines 207-222) yields its error
for an empty roster — but `analyze_stock` does not return then: the
round loop still runs (with no sentinel filtering needed, as the roster
is empty).  After the loop, when `all_round_results` is non-empty, the
conclusion phase forwards `generate_conclusion`'s stream, unrolled to
the recursion-depth budget carried by `co` (truncated by
`ConclOutcome.timedOut fuel k` after `k` messages, followed by the
timeout error and the timeout-complete event; followed by the normal
complete event when `finished`).  `cresp` is the response oracle
consumed by `generate_conclusion`. -/
def analyzeStock (stockCode stockName : String) (actors : List Assignment)
    (maxRounds : Nat) (outcome : Nat → Nat → Option ActorRes)
    (cresp : Nat → ApiResp) (co : ConclOutcome) : List Ev :=
  (if actors.isEmpty then [Ev.errorNoActors] else [Ev.startInfo stockName stockCode]) ++
    (if (roundLoop outcome (activeOf actors) maxRounds 1 [] "").2.2.2 then
      (roundLoop outcome (activeOf actors) maxRounds 1 [] "").1
    else if !(roundLoop outcome (activeOf actors) maxRounds 1 [] "").2.1.isEmpty then
      (roundLoop outcome (activeOf actors) maxRounds 1 [] "").1
        ++ [.conclusionGenerationStart] ++
        (match co with
         | .finished fuel =>
            (genConclusion fuel cresp true
                (roundLoop outcome (activeOf actors) maxRounds 1 [] "").2.1.length
                (conclusionModelOf actors) 0 0 (-1)).1
              ++ [.completeNormal]
         | .timedOut fuel k =>
            ((genConclusion fuel cresp true
                (roundLoop outcome (activeOf actors) maxRounds 1 [] "").2.1.length
                (conclusionModelOf actors) 0 0 (-1)).1).take k
              ++ [.conclusionTimeout, .completeAfterTimeout])
    else
      (roundLoop outcome (activeOf actors) maxRounds 1 [] "").1)

/-! ## The rate-limiter timing model (processor.py lines 17-19, 32-33, 60-68)

`process_actor_analysis` begins with

    if last_request_time:
        elapsed = (datetime.now() - last_request_time).total_seconds()
        if elapsed < REQUEST_INTERVAL:
            await asyncio.sleep(REQUEST_INTERVAL - elapsed)
    last_request_time = datetime.now()

`generate_conclusion` (lines 377-611) contains no counterpart: it posts
to the provider without touching `last_request_time`.  The timeline
below threads real time through a sequence of external calls; each call
is preceded by an arbitrary non-negative scheduling delay, an actor call
executes the entry block above, a conclusion call does not, and all
other work is given its minimal (zero) duration, so the final clock is
the least elapsed time the code enforces. -/

/-- The wait enforced by the entry block, given the current time and
`last_request_time`. -/
def rateWait (now : ℚ) (last : Option ℚ) : ℚ :=
  match last with
  | none => 0
  | some t => if now - t < REQUEST_INTERVAL then REQUEST_INTERVAL - (now - t) else 0

/-- Which of the two outbound-call sites performs a call: the per-actor
analysis (`process_actor_analysis`) or the conclusion synthesis
(`generate_conclusion`). -/
inductive CallKind
  | actorCall
  | conclusionCall
deriving DecidableEq, Repr

/-- Runs a sequence of external calls, each tagged with the scheduling
delay preceding it, starting at time `now` with rate-limiter state
`last`; returns the finishing time.  An `actorCall` waits `rateWait` and
records the new grant time (processor.py lines 63-68); a
`conclusionCall` performs no rate-limiter interaction (there is none in
`generate_conclusion`). -/
def runCalls : List (CallKind × ℚ) → ℚ → Option ℚ → ℚ
  | [], now, _ => now
  | (k, d) :: rest, now, last =>
      let now1 := now + d
      match k with
      | .actorCall =>
          let g := now1 + rateWait now1 last
          runCalls rest g (some g)
      | .conclusionCall => runCalls rest now1 last

/-- Least elapsed time enforced across a call sequence started with no
prior grant. -/
def minElapsed (calls : List (CallKind × ℚ)) : ℚ := runCalls calls 0 none

/-! ## `ProgressManager` (progress.py lines 12-107)

`ws_connections : Dict[str, Any]` holds at most one WebSocket per task
id; `sse_connections : Dict[str, List[asyncio.Queue]]` holds a list of
queues per task id.  Dicts are embedded as association lists with
unique keys; WebSocket handles and queues are identified by numeric
ids. -/

/-- The two subscriber tables of `ProgressManager`
(progress.py lines 15-20): `ws_connections` holds at most one WebSocket
per task id, `sse_connections` a list of queues per task id.  Python
dicts are embedded as functions to `Option`; handles and queues are
numeric ids. -/
structure PM where
  ws : String → Option Nat := fun _ => none
  sse : String → Option (List Nat) := fun _ => none

/-- `add_sse_client` (progress.py lines 22-30): ensure the task's list
exists, then append the new queue. -/
def addSseClient (m : PM) (t : String) (q : Nat) : PM :=
  { m with sse := fun u => if u = t then some ((m.sse t).getD [] ++ [q]) else m.sse u }

/-- `remove_sse_client` (progress.py lines 32-38): if the queue is
registered for the task, remove its first occurrence; delete the key
when the list becomes empty. -/
def removeSseClient (m : PM) (t : String) (q : Nat) : PM :=
  match m.sse t with
  | none => m
  | some qs =>
      if qs.contains q then
        if (qs.erase q).isEmpty then
          { m with sse := fun u => if u = t then none else m.sse u }
        else
          { m with sse := fun u => if u = t then some (qs.erase q) else m.sse u }
      else m

/-- `connect_ws` (progress.py lines 68-72): `ws_connections[task_id] =
websocket` (replacing any previous connection for the task). -/
def connectWs (m : PM) (t : String) (w : Nat) : PM :=
  { m with ws := fun u => if u = t then some w else m.ws u }

/-- `disconnect_ws` (progress.py lines 74-77):
`ws_connections.pop(task_id, None)`. -/
def disconnectWs (m : PM) (t : String) : PM :=
  { m with ws := fun u => if u = t then none else m.ws u }

/-- The queues `send_sse_progress` (progress.py lines 40-66) puts the
message into: every queue of `sse_connections[task_id]` when the key is
present with a non-empty list, none otherwise. -/
def sseTargets (m : PM) (t : String) : List Nat :=
  match m.sse t with
  | some qs => if !qs.isEmpty then qs else []
  | none => []

/-- The WebSocket `send_ws_progress` (progress.py lines 79-104) sends
the message to: `ws_connections[task_id]` when registered. -/
def wsTarget (m : PM) (t : String) : Option Nat :=
  m.ws t

/-- A registration-table operation (the four mutating entry points of
`ProgressManager`). -/
inductive PMOp
  | addSse (t : String) (q : Nat)
  | removeSse (t : String) (q : Nat)
  | connectW (t : String) (w : Nat)
  | disconnectW (t : String)
deriving DecidableEq, Repr

/-- Apply one operation to the manager state. -/
def applyOp (m : PM) : PMOp → PM
  | .addSse t q => addSseClient m t q
  | .removeSse t q => removeSseClient m t q
  | .connectW t w => connectWs m t w
  | .disconnectW t => disconnectWs m t

/-- The manager state after a history of operations, starting from the
freshly-constructed manager (progress.py lines 15-20, 106-107). -/
def runOps (ops : List PMOp) : PM :=
  ops.foldl applyOp {}

/-- Specification-side registration count, computed from the operation
history alone: how many times queue `q` is currently subscribed for
task `t` (an `addSse` adds one; a `removeSse` removes one when any are
present; operations on other tasks or queues are ignored). -/
def sseCountStep (t : String) (q : Nat) (c : Nat) : PMOp → Nat
  | .addSse t' q' => if t' == t && q' == q then c + 1 else c
  | .removeSse t' q' => if t' == t && q' == q && decide (0 < c) then c - 1 else c
  | _ => c

/-- Current registration count of queue `q` for task `t` after a
history of operations. -/
def sseRegCount (ops : List PMOp) (t : String) (q : Nat) : Nat :=
  ops.foldl (sseCountStep t q) 0

/-- Specification-side WebSocket registration, from the history alone:
the handle of the last `connectW` for task `t` not followed by a
`disconnectW` for `t`. -/
def wsRegStep (t : String) (r : Option Nat) : PMOp → Option Nat
  | .connectW t' w => if t' == t then some w else r
  | .disconnectW t' => if t' == t then none else r
  | _ => r

/-- Currently registered WebSocket for task `t` after a history of
operations. -/
def wsReg (ops : List PMOp) (t : String) : Option Nat :=
  ops.foldl (wsRegStep t) none

/-! ## Concrete fixtures for witnesses and counterexamples -/

/-- A provider response classified as an authentication failure
(`error.type == "authentication_error"`, processor.py line 275). -/
def authErrObj : ErrObj := { message := "no", etype := "authentication_error", code := .str "" }

/-- A provider response classified as transient
(`error.code == 400`, processor.py line 283, not auth-classified). -/
def providerErrObj : ErrObj := { message := "bad", etype := "unknown", code := .num 400 }

/-- The dict a fully successful `process_actor_analysis` call returns for
actor `a`, model `m`, content `c` under `reduced_logging=True`. -/
def okActorRes (a m c : String) : ActorRes :=
  { actor := some a, content := some c,
    messages := [.usingModel a m, .apiRequestDetails a m, .apiRequestComplete a,
                 .analysisResult a c m],
    attempts := [(m, 0)], acquires := 1 }

/-! ## Helper lemmas: `fbSkip` and `processActor` invariants -/

/-- `fbSkip` advances the fallback index by one or two. -/
theorem fbSkip_bounds (model : String) (fb : Int) :
    fb + 1 ≤ (fbSkip model fb).1 ∧ (fbSkip model fb).1 ≤ fb + 2 := by
  dsimp only [fbSkip]
  split <;> (simp; try omega)

/-- In the reachable index range, the selected fallback model is a
member of `FALLBACK_MODELS` and differs from the model just tried. -/
theorem fbSkip_sound (model : String) (fb : Int) (hfb : -1 ≤ fb)
    (hf : fb < (FALLBACK_MODELS.length : Int) - 1)
    (hp : (fbSkip model fb).1 < (FALLBACK_MODELS.length : Int)) :
    (fbSkip model fb).2 ∈ FALLBACK_MODELS ∧ (fbSkip model fb).2 ≠ model := by
  have h3 : (FALLBACK_MODELS.length : Int) = 3 := by simp [FALLBACK_MODELS]
  rw [h3] at hf hp
  interval_cases fb
  · by_cases hM : model = "deepseek/deepseek-chat:free"
    · subst hM
      refine ⟨by decide, by decide⟩
    · have hB : (fbSkip model (-1)) = (0, "deepseek/deepseek-chat:free") := by
        simp [fbSkip, FALLBACK_MODELS, hM]
      rw [hB]
      exact ⟨by decide, fun h => hM h.symm⟩
  · by_cases hM : model = "google/gemini-exp-1206:free"
    · subst hM
      refine ⟨by decide, by decide⟩
    · have hB : (fbSkip model 0) = (1, "google/gemini-exp-1206:free") := by
        simp [fbSkip, FALLBACK_MODELS, hM]
      rw [hB]
      exact ⟨by decide, fun h => hM h.symm⟩
  · by_cases hM : model = "google/gemini-2.0-flash-lite-preview-02-05:free"
    · subst hM
      exfalso
      have : (fbSkip "google/gemini-2.0-flash-lite-preview-02-05:free" 1).1 = 3 := by decide
      omega
    · have hB : (fbSkip model 1) = (2, "google/gemini-2.0-flash-lite-preview-02-05:free") := by
        simp [fbSkip, FALLBACK_MODELS, hM]
      rw [hB]
      exact ⟨by decide, fun h => hM h.symm⟩

/-- At fallback index `-1` the duplicate-skipping selection always lands
inside the fallback list, so the exhausted branch cannot be taken from
index `-1`. -/
theorem fbSkip_neg_one_lt (model : String) :
    (fbSkip model (-1)).1 < (FALLBACK_MODELS.length : Int) := by
  simp only [fbSkip]
  split <;> norm_num [FALLBACK_MODELS]

/-- Every returned result's `attempts` trace starts with the invocation's
own `(model, retry_count)` pair. -/
theorem processActor_attempts_head (resp : Nat → ApiResp) (rp : String → Bool)
    (rlog : Bool) (actor : String) (fuel : Nat) :
    ∀ (model : String) (attempt retry : Nat) (fb : Int) (r : ActorRes),
      processActor fuel resp rp rlog actor model attempt retry fb = some r →
      r.attempts.head? = some (model, retry) := by
  induction fuel with
  | zero =>
      intro model attempt retry fb r h
      simp [processActor] at h
  | succ f ih =>
      intro model attempt retry fb r h
      simp only [processActor] at h
      repeat' split at h
      all_goals
        first
          | (obtain ⟨r', hr', hgr⟩ := Option.map_eq_some'.mp h
             subst hgr
             simp)
          | (rw [Option.some_inj] at h
             subst h
             simp)

/-- Each invocation that returns executes the rate-limiter entry block
exactly once: the acquisition count equals the number of invocations. -/
theorem processActor_acquires (resp : Nat → ApiResp) (rp : String → Bool)
    (rlog : Bool) (actor : String) (fuel : Nat) :
    ∀ (model : String) (attempt retry : Nat) (fb : Int) (r : ActorRes),
      processActor fuel resp rp rlog actor model attempt retry fb = some r →
      r.acquires = r.attempts.length := by
  induction fuel with
  | zero =>
      intro model attempt retry fb r h
      simp [processActor] at h
  | succ f ih =>
      intro model attempt retry fb r h
      simp only [processActor] at h
      repeat' split at h
      all_goals
        first
          | (obtain ⟨r', hr', hgr⟩ := Option.map_eq_some'.mp h
             subst hgr
             have h2 := ih _ _ _ _ _ hr'
             simp [h2])
          | (rw [Option.some_inj] at h
             subst h
             simp)

/-- No retry-type or fallback-type event survives into the returned
`messages`: those notices are appended to the discarded caller list,
and no leaf path appends them. -/
theorem processActor_no_retry_fb (resp : Nat → ApiResp) (rp : String → Bool)
    (rlog : Bool) (actor : String) (fuel : Nat) :
    ∀ (model : String) (attempt retry : Nat) (fb : Int) (r : ActorRes),
      processActor fuel resp rp rlog actor model attempt retry fb = some r →
      r.messages.filter
        (fun e => etype e == EvType.retry || etype e == EvType.fallback) = [] := by
  induction fuel with
  | zero =>
      intro model attempt retry fb r h
      simp [processActor] at h
  | succ f ih =>
      intro model attempt retry fb r h
      simp only [processActor] at h
      repeat' split at h
      all_goals
        first
          | (obtain ⟨r', hr', hgr⟩ := Option.map_eq_some'.mp h
             subst hgr
             simpa using ih _ _ _ _ _ hr')
          | (rw [Option.some_inj] at h
             subst h
             simp [etype, -List.filter_eq_nil_iff])

/-- `getLast?` ignores a prepended element when the tail already has a
last element. -/
theorem getLast?_cons_some {α : Type} (q y : α) (l : List α)
    (h : l.getLast? = some y) : (q :: l).getLast? = some y := by
  cases l with
  | nil => simp at h
  | cons b t => rw [List.getLast?_cons_cons]; exact h

/-- Every progress event of a returned `messages` list names the model of
the final attempt (the last entry of the `attempts` trace): the earlier
attempts' messages were discarded by the recursion. -/
theorem processActor_usingModel_final (resp : Nat → ApiResp) (rp : String → Bool)
    (rlog : Bool) (actor : String) (fuel : Nat) :
    ∀ (model : String) (attempt retry : Nat) (fb : Int) (r : ActorRes),
      processActor fuel resp rp rlog actor model attempt retry fb = some r →
      ∀ a m, Ev.usingModel a m ∈ r.messages →
        (r.attempts.getLast?).map Prod.fst = some m := by
  induction fuel with
  | zero =>
      intro model attempt retry fb r h
      simp [processActor] at h
  | succ f ih =>
      intro model attempt retry fb r h
      simp only [processActor] at h
      repeat' split at h
      all_goals
        first
          | (obtain ⟨r', hr', hgr⟩ := Option.map_eq_some'.mp h
             subst hgr
             intro a m hm
             have h2 := ih _ _ _ _ _ hr' a m (by simpa using hm)
             obtain ⟨p, hp, hpm⟩ := Option.map_eq_some'.mp h2
             simp only
             rw [getLast?_cons_some _ _ _ hp]
             simp [hpm])
          | (rw [Option.some_inj] at h
             subst h
             intro a m hm
             simp at hm
             try (obtain ⟨h1, h2⟩ := hm; subst h2; simp))

/-- A retryable response is a well-formed error, not auth-classified,
provider-classified. -/
theorem retryable_dest {r : ApiResp} (h : isRetryableResp r) :
    ∃ e, r = .err e ∧ isAuthError e = false ∧ isProviderError e = true := by
  cases r <;> simp_all [isRetryableResp]

/-- `take 1` of a list whose head is known. -/
theorem take_one_of_head {α : Type} (l : List α) (x : α) (h : l.head? = some x) :
    l.take 1 = [x] := by
  cases l <;> simp_all

/-- C4: "For every provider response whose error message or code
indicates authentication failure, process_actor_analysis performs zero
retries and zero fallbacks and surfaces the failure immediately as an
auth error event to the caller."  Evaluation at an auth-classified
response: there is exactly one attempt (zero retries), no fallback, but
the returned messages contain NO error-type event at all — the auth
branch (processor.py lines 275-277) only dead-stores `error_detail`;
the append of the error event (line 339) is inside the non-auth `else`.
The sister function `generate_conclusion` does yield the auth error
(line 579), which marks the omission in `process_actor_analysis` as a
slip. -/
theorem C4_auth_no_error_event :
    ∃ r, processActor 1 (fun _ => .err authErrObj) (fun _ => true) true
        "基本面分析师" "m1" 0 0 (-1) = some r ∧
      r.attempts = [("m1", 0)] ∧
      r.fallbackSteps = [] ∧
      r.messages.filter (fun e => etype e == EvType.error) = [] := by
  refine ⟨_, rfl, ?_, ?_, ?_⟩ <;> decide

/-- C5: "For every provider error classified as transient,
process_actor_analysis retries up to MAX_RETRIES = 3 times with strictly
increasing linear delays RETRY_DELAY * attempt (2s, 4s, 6s), each retry
re-acquiring the rate limiter, before falling back; each fallback
attempt resets the retry counter to zero."  Whenever the logical call
returns (at any recursion-depth budget), its first four invocations ran
the original model with retry counters 0,1,2,3, sleeping 2,4,6 seconds
between them; the fifth was the first fallback attempt with the counter
reset to 0; and every invocation executed the rate-limiter entry block
once. -/
theorem C5_transient_retry_backoff (resp : Nat → ApiResp) (rp : String → Bool)
    (rlog : Bool) (actor model : String) (ha : actor ≠ "") (hm : model ≠ "")
    (hrp : rp actor = true) (hresp : ∀ i < 4, isRetryableResp (resp i))
    (fuel : Nat) (r : ActorRes)
    (h : processActor fuel resp rp rlog actor model 0 0 (-1) = some r) :
    r.sleeps.take 3 = [RETRY_DELAY * 1, RETRY_DELAY * 2, RETRY_DELAY * 3] ∧
    r.attempts.take 5
        = [(model, 0), (model, 1), (model, 2), (model, 3), ((fbSkip model (-1)).2, 0)] ∧
    r.acquires = r.attempts.length := by
  obtain ⟨e0, he0, ha0, hp0⟩ := retryable_dest (hresp 0 (by norm_num))
  obtain ⟨e1, he1, ha1, hp1⟩ := retryable_dest (hresp 1 (by norm_num))
  obtain ⟨e2, he2, ha2, hp2⟩ := retryable_dest (hresp 2 (by norm_num))
  obtain ⟨e3, he3, ha3, hp3⟩ := retryable_dest (hresp 3 (by norm_num))
  have hacq := processActor_acquires resp rp rlog actor fuel model 0 0 (-1) r h
  have hc1 : ¬((actor == "" || model == "") = true) := by simp [ha, hm]
  have hc2 : ¬((!rp actor) = true) := by simp [hrp]
  have hf1 : (-1 : Int) < (FALLBACK_MODELS.length : Int) - 1 := by
    norm_num [FALLBACK_MODELS]
  have hpn := fbSkip_neg_one_lt model
  cases fuel with
  | zero => simp [processActor] at h
  | succ f0 =>
    simp only [processActor, he0] at h
    rw [if_neg hc1, if_neg hc2, if_neg (by simp [ha0]), if_pos hp0,
      if_pos (show (0 : Nat) < MAX_RETRIES by decide)] at h
    obtain ⟨r1, hrec1, hval1⟩ := Option.map_eq_some'.mp h
    subst hval1
    cases f0 with
    | zero => simp [processActor] at hrec1
    | succ f1 =>
      simp only [processActor, he1] at hrec1
      rw [if_neg hc1, if_neg hc2, if_neg (by simp [ha1]), if_pos hp1,
        if_pos (show (1 : Nat) < MAX_RETRIES by decide)] at hrec1
      obtain ⟨r2, hrec2, hval2⟩ := Option.map_eq_some'.mp hrec1
      subst hval2
      cases f1 with
      | zero => simp [processActor] at hrec2
      | succ f2 =>
        simp only [processActor, he2] at hrec2
        rw [if_neg hc1, if_neg hc2, if_neg (by simp [ha2]), if_pos hp2,
          if_pos (show (2 : Nat) < MAX_RETRIES by decide)] at hrec2
        obtain ⟨r3, hrec3, hval3⟩ := Option.map_eq_some'.mp hrec2
        subst hval3
        cases f2 with
        | zero => simp [processActor] at hrec3
        | succ f3 =>
          simp only [processActor, he3] at hrec3
          rw [if_neg hc1, if_neg hc2, if_neg (by simp [ha3]), if_pos hp3,
            if_neg (show ¬((3 : Nat) < MAX_RETRIES) by decide), if_pos hf1,
            if_pos hpn] at hrec3
          obtain ⟨r4, hrec4, hval4⟩ := Option.map_eq_some'.mp hrec3
          subst hval4
          have hhead := processActor_attempts_head resp rp rlog actor f3
            (fbSkip model (-1)).2 4 0 (fbSkip model (-1)).1 r4 hrec4
          have htake := take_one_of_head _ _ hhead
          refine ⟨?_, ?_, hacq⟩ <;> simp [htake]

/-- Witness for C5: a run whose first four responses are transient
provider errors and whose fifth succeeds, applied to
`C5_transient_retry_backoff` at recursion-depth budget 5. -/
theorem C5_transient_retry_backoff_witness :
    ((processActor 5 (fun i => if i < 4 then .err providerErrObj else .ok "done")
        (fun _ => true) true "基本面分析师" "m1" 0 0 (-1)).map
      (fun r => (r.sleeps.take 3, r.attempts.take 5,
                 r.acquires == r.attempts.length)))
      = some ([RETRY_DELAY * 1, RETRY_DELAY * 2, RETRY_DELAY * 3],
              [("m1", 0), ("m1", 1), ("m1", 2), ("m1", 3), ((fbSkip "m1" (-1)).2, 0)],
              true) := by
  cases hx : processActor 5 (fun i => if i < 4 then .err providerErrObj else .ok "done")
      (fun _ => true) true "基本面分析师" "m1" 0 0 (-1) with
  | none => exact absurd hx (by decide)
  | some r =>
      obtain ⟨h1, h2, h3⟩ := C5_transient_retry_backoff _ _ _ _ _ (by decide) (by decide) rfl
        (by intro i hi
            simp only [hi, if_pos]
            decide) 5 r hx
      simp [h1, h2, h3]

/-- C6 (code_bug): the claim says the fallback chain "terminates with a
final exhausted-error event once the fallback list is exhausted rather
than looping".  In the code, the retry recursion
(processor.py lines 298-302) omits the `fallback_model_index` argument,
which therefore resets to its default `-1`; every fallback decision is
taken at index `-1`, where the duplicate-skip always selects
`FALLBACK_MODELS[0]` or `FALLBACK_MODELS[1]`, so under persistently
retryable responses the chain alternates between those two models
forever, the exhausted branch is unreachable, and the call never
returns at any recursion-depth budget — in particular the
exhausted-error event is never emitted.  The invariant hypotheses
describe every reachable invocation: at the real entry point
`retry_count = 0, fallback_model_index = -1` they hold trivially, each
retry recursion restores `fb = -1`, and each fallback recursion resets
`retry` to `0`. -/
theorem C6_retry_resets_fallback_index (resp : Nat → ApiResp) (rp : String → Bool)
    (rlog : Bool) (actor : String) (ha : actor ≠ "") (hrp : rp actor = true)
    (hresp : ∀ i, isRetryableResp (resp i)) :
    ∀ (fuel : Nat) (model : String) (attempt retry : Nat) (fb : Int),
      model ≠ "" → retry ≤ MAX_RETRIES → (retry = MAX_RETRIES → fb = -1) →
      processActor fuel resp rp rlog actor model attempt retry fb = none := by
  intro fuel
  induction fuel with
  | zero =>
      intro model attempt retry fb hm hr hrfb
      simp [processActor]
  | succ f ih =>
      intro model attempt retry fb hm hr hrfb
      obtain ⟨e, he, hauth, hprov⟩ := retryable_dest (hresp attempt)
      have hc1 : ¬((actor == "" || model == "") = true) := by simp [ha, hm]
      have hc2 : ¬((!rp actor) = true) := by simp [hrp]
      have hc3 : ¬(isAuthError e = true) := by simp [hauth]
      have hf1 : (-1 : Int) < (FALLBACK_MODELS.length : Int) - 1 := by
        norm_num [FALLBACK_MODELS]
      have hpn := fbSkip_neg_one_lt model
      have hsound := fbSkip_sound model (-1) (by norm_num) hf1 hpn
      have hm' : (fbSkip model (-1)).2 ≠ "" := by
        have hall : ∀ x ∈ FALLBACK_MODELS, x ≠ "" := by decide
        exact hall _ hsound.1
      simp only [processActor, he]
      by_cases hlt : retry < MAX_RETRIES
      · rw [if_neg hc1, if_neg hc2, if_neg hc3, if_pos hprov, if_pos hlt,
          ih model (attempt + 1) (retry + 1) (-1) hm (by omega) (fun _ => rfl)]
        rfl
      · have hreq : retry = MAX_RETRIES := by omega
        have hfb : fb = -1 := hrfb hreq
        subst hfb
        rw [if_neg hc1, if_neg hc2, if_neg hc3, if_pos hprov, if_neg hlt,
          if_pos hf1, if_pos hpn,
          ih (fbSkip model (-1)).2 (attempt + 1) 0 (fbSkip model (-1)).1 hm'
            (by omega) (fun h0 => absurd h0 (by decide))]
        rfl

/-- Witness for C6 (code_bug): under all-transient responses the call
never returns within recursion-depth budget 20, applied to
`C6_retry_resets_fallback_index`. -/
theorem C6_retry_resets_fallback_index_witness :
    processActor 20 (fun _ => .err providerErrObj) (fun _ => true) true
        "基本面分析师" "m1" 0 0 (-1) = none :=
  C6_retry_resets_fallback_index _ _ _ _ (by decide) rfl (fun _ => by decide)
    20 "m1" 0 0 (-1) (by decide) (by decide) (by decide)

/-- C10: "For every invocation of process_actor_analysis that performs a
retry or fallback recursion, the messages list of the returned dict
contains only the messages produced by the final attempt: the
retry/fallback notice events and all other progress messages appended
before the recursive call are absent from the returned result, because
each recursive call starts a fresh messages list and its return value
replaces the caller's."  For every returned result: no retry- or
fallback-type event survives into the returned messages, and every
progress event names the final attempt's model. -/
theorem C10_messages_final_attempt_only (resp : Nat → ApiResp) (rp : String → Bool)
    (rlog : Bool) (actor model : String) (attempt retry : Nat) (fb : Int)
    (fuel : Nat) (r : ActorRes)
    (h : processActor fuel resp rp rlog actor model attempt retry fb = some r) :
    r.messages.filter
      (fun e => etype e == EvType.retry || etype e == EvType.fallback) = [] ∧
    (∀ a m, Ev.usingModel a m ∈ r.messages →
      (r.attempts.getLast?).map Prod.fst = some m) :=
  ⟨processActor_no_retry_fb resp rp rlog actor fuel model attempt retry fb r h,
   processActor_usingModel_final resp rp rlog actor fuel model attempt retry fb r h⟩

/-- Witness for C10: a successful single-attempt run, applied to
`C10_messages_final_attempt_only`. -/
theorem C10_messages_final_attempt_only_witness :
    (okActorRes "基本面分析师" "m1" "X").messages.filter
      (fun e => etype e == EvType.retry || etype e == EvType.fallback) = [] ∧
    ((okActorRes "基本面分析师" "m1" "X").attempts.getLast?).map Prod.fst = some "m1" := by
  have h := C10_messages_final_attempt_only (fun _ => .ok "X") (fun _ => true) true
    "基本面分析师" "m1" 0 0 (-1) 1 (okActorRes "基本面分析师" "m1" "X") (by decide)
  exact ⟨h.1, h.2 "基本面分析师" "m1" (by decide)⟩

/-! ## Helper lemmas: `genConclusion` and the round loop -/

/-- `getLast?` through an append whose right part has a known last
element. -/
theorem getLast?_append_ne {α : Type} (l1 l2 : List α) (y : α)
    (h : l2.getLast? = some y) : (l1 ++ l2).getLast? = some y := by
  induction l1 with
  | nil => simpa
  | cons a t ih => rw [List.cons_append]; exact getLast?_cons_some _ _ _ ih

/-- Once `all_round_results` is non-empty, the first-round-failure
`return` can no longer fire and the accumulated results stay
non-empty. -/
theorem roundLoop_no_early (outcome : Nat → Nat → Option ActorRes)
    (active : List Assignment) (maxRounds : Nat) (n : Nat) (allRes : List ActorRes)
    (hist : String) (h : allRes ≠ []) :
    (roundLoop outcome active maxRounds n allRes hist).2.2.2 = false ∧
    (roundLoop outcome active maxRounds n allRes hist).2.1 ≠ [] := by
  induction n, allRes, hist using roundLoop.induct outcome active maxRounds with
  | _ =>
    rw [roundLoop]
    try simp_all
    try ((repeat' split) <;> (try simp_all) <;> (try omega))


/-- When round 1 collects at least one successful result, the loop
neither returns early nor ends with an empty result list. -/
theorem roundLoop_start (outcome : Nat → Nat → Option ActorRes)
    (active : List Assignment) (maxRounds : Nat) (hist : String)
    (hmr : 1 ≤ maxRounds) (h1 : (runRound outcome active 1).2 ≠ []) :
    (roundLoop outcome active maxRounds 1 [] hist).2.2.2 = false ∧
    (roundLoop outcome active maxRounds 1 [] hist).2.1 ≠ [] := by
  have hnm : ¬(maxRounds < 1) := by omega
  rw [roundLoop]
  simp only [hnm, dif_neg, not_false_eq_true, List.nil_append]
  have hE : (runRound outcome active 1).2.isEmpty = false := by
    cases hL : (runRound outcome active 1).2 with
    | nil => exact absurd hL h1
    | cons a t => rfl
  simp only [hE, Bool.false_and, Bool.false_eq_true, if_false]
  exact roundLoop_no_early outcome active maxRounds 2 _ _ h1

/-- C1 (amended): for every session whose first round produces at least
one successful result, the event stream of `analyze_stock` ends with a
complete-type event with no events after it (the stream may contain two
complete-type events — `generate_conclusion`'s own complete-type
summary event can precede the final one; see the counterexample). -/
theorem C1_terminal_complete (stockCode stockName : String) (actors : List Assignment)
    (maxRounds : Nat) (outcome : Nat → Nat → Option ActorRes) (cresp : Nat → ApiResp)
    (co : ConclOutcome) (hmr : 1 ≤ maxRounds)
    (h1 : (runRound outcome (activeOf actors) 1).2 ≠ []) :
    ∃ e, (analyzeStock stockCode stockName actors maxRounds outcome cresp co).getLast? =
      some e ∧ etype e = EvType.complete := by
  obtain ⟨hearly, hne⟩ := roundLoop_start outcome (activeOf actors) maxRounds "" hmr h1
  have hisE : (roundLoop outcome (activeOf actors) maxRounds 1 [] "").2.1.isEmpty = false := by
    cases hL : (roundLoop outcome (activeOf actors) maxRounds 1 [] "").2.1 with
    | nil => exact absurd hL hne
    | cons a t => rfl
  rw [analyzeStock.eq_def]
  rw [hearly, hisE]
  cases co with
  | finished fuel =>
      refine ⟨.completeNormal, ?_, rfl⟩
      simp only [Bool.false_eq_true, if_false, Bool.not_false, if_true]
      refine getLast?_append_ne _ _ _ ?_
      refine getLast?_append_ne _ _ _ ?_
      refine getLast?_append_ne _ _ _ ?_
      rfl
  | timedOut fuel k =>
      refine ⟨.completeAfterTimeout, ?_, rfl⟩
      simp only [Bool.false_eq_true, if_false, Bool.not_false, if_true]
      refine getLast?_append_ne _ _ _ ?_
      refine getLast?_append_ne _ _ _ ?_
      refine getLast?_append_ne _ _ _ ?_
      rfl


/-- C1 (counterexample to "exactly one complete event"): a fully
successful single-actor, single-round session.  `generate_conclusion`
yields its own complete-type summary event
("分析完成,总共分析了N个角色", processor.py lines 606-611) and
`analyze_stock` then yields its final complete event
("分析已完成", analyzer.py lines 201-204): the stream contains two
complete-type events, so it is not terminated by exactly one. -/
theorem C1_two_complete_events :
    ((analyzeStock "000001" "X" [⟨"A", "m"⟩] 1
        (fun _ _ => some (okActorRes "A" "m" "X"))
        (fun _ => .ok "C") (.finished 1)).countP
      (fun e => etype e == EvType.complete)) = 2 := by
  have hg : ∀ (n : Nat) (cm : Option String),
      genConclusion 1 (fun _ => .ok "C") true n cm 0 0 (-1)
        = ([.conclusionStart, .conclusionResult "C" (resolveConclusionModel cm),
            .conclusionComplete n], true) := fun n cm => rfl
  rw [analyzeStock.eq_def]
  rw [roundLoop]
  rw [roundLoop]
  simp [activeOf, conclusionModelOf, okActorRes, contentTruthy, histUpdate,
    newOpinions, fmtOpinion, resolveConclusionModel, etype, runRound, runRoundAux, hg]


/-- Witness for C1 (amended): a concrete session with a successful first
round and a conclusion timeout after one forwarded message, applied to
`C1_terminal_complete`. -/
theorem C1_terminal_complete_witness :
    ∃ e, (analyzeStock "000001" "X" [⟨"A", "m"⟩] 1
        (fun _ _ => some (okActorRes "A" "m" "X")) (fun _ => .ok "C")
        (.timedOut 1 1)).getLast? = some e ∧ etype e = EvType.complete :=
  C1_terminal_complete _ _ _ _ _ _ _ (by norm_num) (by decide)

/-- C2 (amended): for the empty roster `analyze_stock` emits the
`validate_params` error event but does not stop: a round-1 start info
and the first-round-failure warning follow before termination.  For a
sentinel-only roster no error event is emitted at all: the start info,
the round-1 start info and the warning make up the whole stream. -/
theorem C2_empty_and_sentinel_roster (stockCode stockName m : String)
    (maxRounds : Nat) (outcome : Nat → Nat → Option ActorRes)
    (cresp : Nat → ApiResp) (co : ConclOutcome) (hmr : 1 ≤ maxRounds) :
    analyzeStock stockCode stockName [] maxRounds outcome cresp co
      = [.errorNoActors, .roundStart 1, .firstRoundNoResults] ∧
    analyzeStock stockCode stockName [⟨"conclusion_model", m⟩] maxRounds outcome cresp co
      = [.startInfo stockName stockCode, .roundStart 1, .firstRoundNoResults] := by
  have hnm : ¬(maxRounds < 1) := by omega
  constructor <;>
    (rw [analyzeStock.eq_def, roundLoop]
     simp [activeOf, runRound, runRoundAux, hnm])

/-- Witness for C2 (amended) at `maxRounds = 3`, applied to
`C2_empty_and_sentinel_roster`. -/
theorem C2_empty_and_sentinel_roster_witness :
    analyzeStock "000001" "X" [] 3 (fun _ _ => none) (fun _ => .ok "C") (.finished 1)
      = [.errorNoActors, .roundStart 1, .firstRoundNoResults] ∧
    analyzeStock "000001" "X" [⟨"conclusion_model", "m"⟩] 3 (fun _ _ => none)
        (fun _ => .ok "C") (.finished 1)
      = [.startInfo "X" "000001", .roundStart 1, .firstRoundNoResults] :=
  C2_empty_and_sentinel_roster _ _ _ _ _ _ _ (by norm_num)

/-- C2 (counterexample): for the sentinel-only roster the claim
"exactly one error-type event, then no further events" fails: the
stream contains zero error-type events, and the validation message is
followed by two more events. -/
theorem C2_sentinel_counterexample :
    analyzeStock "000001" "X" [⟨"conclusion_model", "m"⟩] 3 (fun _ _ => none)
        (fun _ => .ok "C") (.finished 1)
      = [.startInfo "X" "000001", .roundStart 1, .firstRoundNoResults] ∧
    ((analyzeStock "000001" "X" [⟨"conclusion_model", "m"⟩] 3 (fun _ _ => none)
        (fun _ => .ok "C") (.finished 1)).countP (fun e => etype e == EvType.error)) = 0 := by
  have hstream : analyzeStock "000001" "X" [⟨"conclusion_model", "m"⟩] 3 (fun _ _ => none)
      (fun _ => .ok "C") (.finished 1)
      = [.startInfo "X" "000001", .roundStart 1, .firstRoundNoResults] := by
    rw [analyzeStock.eq_def, roundLoop]
    simp [activeOf, runRound, runRoundAux]
  refine ⟨hstream, ?_⟩
  rw [hstream]
  decide


/-! ## Helper lemmas for the round-failure policy (C3) -/

/-- A filtered-out predicate survives `take`. -/
theorem filter_take_nil {α : Type} (l : List α) (p : α → Bool) (k : Nat)
    (h : l.filter p = []) : (l.take k).filter p = [] := by
  rw [List.filter_eq_nil_iff] at h ⊢
  intro a ha
  exact h a (List.take_subset k l ha)

/-- `generate_conclusion` never yields a round-start event. -/
theorem genConclusion_no_roundStart (resp : Nat → ApiResp) (rlog : Bool)
    (nResults : Nat) (fuel : Nat) :
    ∀ (cm : Option String) (attempt retry : Nat) (fb : Int),
      (genConclusion fuel resp rlog nResults cm attempt retry fb).1.filter
        isRoundStartEv = [] := by
  induction fuel with
  | zero =>
      intro cm attempt retry fb
      simp [genConclusion]
  | succ f ih =>
      intro cm attempt retry fb
      simp only [genConclusion]
      (repeat' split) <;>
        first
          | (simp [isRoundStartEv]; done)
          | (simp [isRoundStartEv, ih]; done)
          | simp_all [isRoundStartEv]

/-- The actor loop of a round never yields a round-start event, provided
the per-actor oracle results do not contain one (as `processActor`
results never do). -/
theorem runRoundAux_no_roundStart (outcome : Nat → Nat → Option ActorRes) (n : Nat)
    (l : List (Nat × Assignment))
    (houtcome : ∀ i r, outcome n i = some r → r.messages.filter isRoundStartEv = []) :
    (runRoundAux outcome n l).1.filter isRoundStartEv = [] := by
  induction l with
  | nil => rfl
  | cons p rest ih =>
      obtain ⟨i, a⟩ := p
      rw [runRoundAux]
      cases ho : outcome n i with
      | none => simp [isRoundStartEv, ih]
      | some r =>
          have hr := houtcome i r ho
          simp [isRoundStartEv, ih, hr]

/-- In a run that can no longer return early, the round-start events of
the loop are exactly one per remaining round: no round is started
twice (not retried). -/
theorem roundLoop_roundStarts (outcome : Nat → Nat → Option ActorRes)
    (active : List Assignment) (maxRounds : Nat)
    (houtcome : ∀ n i r, outcome n i = some r →
      r.messages.filter isRoundStartEv = []) :
    ∀ (n : Nat) (allRes : List ActorRes) (hist : String), allRes ≠ [] →
      (roundLoop outcome active maxRounds n allRes hist).1.filter isRoundStartEv
        = (List.range' n (maxRounds + 1 - n)).map Ev.roundStart := by
  intro n allRes hist
  induction n, allRes, hist using roundLoop.induct outcome active maxRounds with
  | case1 n allRes hist hlt =>
      intro hne
      rw [roundLoop]
      have h0 : maxRounds + 1 - n = 0 := by omega
      simp [hlt, h0]
  | case2 n allRes hist hle hcond ih =>
      intro hne
      have hrr := runRoundAux_no_roundStart outcome n active.enum (fun i r => houtcome n i r)
      rw [roundLoop]
      rw [dif_neg (by omega)]
      rw [if_pos hcond]
      have hr' : (List.range' n (maxRounds + 1 - n)).map Ev.roundStart
          = Ev.roundStart n :: (List.range' (n + 1) (maxRounds + 1 - (n + 1))).map Ev.roundStart := by
        have h1 : maxRounds + 1 - n = (maxRounds + 1 - (n + 1)) + 1 := by omega
        rw [h1, List.range'_succ]
        simp
      rw [hr']
      have ihh := ih (by
        intro hh
        rw [hh] at hcond
        simp at hcond)
      simp only [runRound] at ihh
      split <;> simp [isRoundStartEv, runRound, hrr, ihh]
  | case3 n allRes hist hle hcond1 hcond2 =>
      intro hne
      exfalso
      simp [List.isEmpty_iff] at hcond2
      exact hne hcond2.1.2.1
  | case4 n allRes hist hle hcond1 hcond2 ih =>
      intro hne
      have hrr := runRoundAux_no_roundStart outcome n active.enum (fun i r => houtcome n i r)
      rw [roundLoop]
      rw [dif_neg (by omega)]
      rw [if_neg hcond1, if_neg hcond2]
      have hr' : (List.range' n (maxRounds + 1 - n)).map Ev.roundStart
          = Ev.roundStart n :: (List.range' (n + 1) (maxRounds + 1 - (n + 1))).map Ev.roundStart := by
        have h1 : maxRounds + 1 - n = (maxRounds + 1 - (n + 1)) + 1 := by omega
        rw [h1, List.range'_succ]
        simp
      rw [hr']
      have ihh := ih (by
        intro hh
        simp [List.append_eq_nil] at hh
        exact hne hh.1)
      simp only [runRound] at ihh
      split <;> simp [isRoundStartEv, runRound, hrr, ihh]


/-- In a run that can no longer return early, a round `m` that collects
zero results (while prior results exist) contributes its warning event
to the stream, and the loop continues rather than retrying. -/
theorem roundLoop_mem_warning (outcome : Nat → Nat → Option ActorRes)
    (active : List Assignment) (maxRounds : Nat) :
    ∀ (n : Nat) (allRes : List ActorRes) (hist : String), allRes ≠ [] →
      ∀ m, n ≤ m → m ≤ maxRounds → (runRound outcome active m).2 = [] →
        Ev.laterRoundNoResults m ∈ (roundLoop outcome active maxRounds n allRes hist).1 := by
  intro n allRes hist
  induction n, allRes, hist using roundLoop.induct outcome active maxRounds with
  | case1 n allRes hist hlt =>
      intro hne m hnm hmm _
      exfalso
      omega
  | case2 n allRes hist hle hcond ih =>
      intro hne m hnm hmm hm
      rw [roundLoop]
      rw [dif_neg (by omega), if_pos hcond]
      by_cases hEq : m = n
      · subst hEq
        simp
      · have hlt2 : n + 1 ≤ m := by omega
        have hne2 : allRes ++ (runRound outcome active n).2 ≠ [] := by
          intro hh
          simp [List.append_eq_nil] at hh
          exact hne hh.1
        have ihh := ih hne2 m hlt2 hmm hm
        simp [ihh]
  | case3 n allRes hist hle hcond1 hcond2 =>
      intro hne m hnm hmm hm
      exfalso
      simp [List.isEmpty_iff] at hcond2
      exact hne hcond2.1.2.1
  | case4 n allRes hist hle hcond1 hcond2 ih =>
      intro hne m hnm hmm hm
      rw [roundLoop]
      rw [dif_neg (by omega), if_neg hcond1, if_neg hcond2]
      by_cases hEq : m = n
      · subst hEq
        exfalso
        apply hcond1
        have hE : (runRound outcome active m).2.isEmpty = true := by simp [hm]
        have hA : (allRes ++ (runRound outcome active m).2).isEmpty = false := by
          simp [hm, List.isEmpty_iff]
          exact hne
        simp [hE, hA]
      · have hlt2 : n + 1 ≤ m := by omega
        have hne2 : allRes ++ (runRound outcome active n).2 ≠ [] := by
          intro hh
          simp [List.append_eq_nil] at hh
          exact hne hh.1
        have ihh := ih hne2 m hlt2 hmm hm
        simp [ihh]

/-- With a successful first round, a later failed round's warning event
reaches the stream of the whole loop started at round 1. -/
theorem roundLoop_mem_warning_start (outcome : Nat → Nat → Option ActorRes)
    (active : List Assignment) (maxRounds : Nat) (hist : String)
    (hmr : 1 ≤ maxRounds) (h1 : (runRound outcome active 1).2 ≠ [])
    (m : Nat) (hm2 : 2 ≤ m) (hmm : m ≤ maxRounds)
    (hm : (runRound outcome active m).2 = []) :
    Ev.laterRoundNoResults m ∈ (roundLoop outcome active maxRounds 1 [] hist).1 := by
  rw [roundLoop]
  rw [dif_neg (by omega)]
  have hE : (runRound outcome active 1).2.isEmpty = false := by
    cases hL : (runRound outcome active 1).2 with
    | nil => exact absurd hL h1
    | cons a t => rfl
  rw [if_neg (by simp [hE]), if_neg (by simp [hE])]
  have ihh := roundLoop_mem_warning outcome active maxRounds 2 ([] ++ (runRound outcome active 1).2)
    (histUpdate 1 hist (runRound outcome active 1).2) (by simpa using h1) m hm2 hmm hm
  simp at ihh
  simp [ihh]


/-- With a successful first round, the loop started at round 1 emits
exactly one round-start event per round `1..maxRounds`. -/
theorem roundLoop_roundStarts_start (outcome : Nat → Nat → Option ActorRes)
    (active : List Assignment) (maxRounds : Nat) (hist : String)
    (hmr : 1 ≤ maxRounds) (h1 : (runRound outcome active 1).2 ≠ [])
    (houtcome : ∀ n i r, outcome n i = some r →
      r.messages.filter isRoundStartEv = []) :
    (roundLoop outcome active maxRounds 1 [] hist).1.filter isRoundStartEv
      = (List.range' 1 maxRounds).map Ev.roundStart := by
  rw [roundLoop]
  rw [dif_neg (by omega)]
  have hE : (runRound outcome active 1).2.isEmpty = false := by
    cases hL : (runRound outcome active 1).2 with
    | nil => exact absurd hL h1
    | cons a t => rfl
  rw [if_neg (by simp [hE]), if_neg (by simp [hE])]
  have hrr := runRoundAux_no_roundStart outcome 1 active.enum (fun i r => houtcome 1 i r)
  have hrest := roundLoop_roundStarts outcome active maxRounds houtcome 2
    ([] ++ (runRound outcome active 1).2) (histUpdate 1 hist (runRound outcome active 1).2)
    (by simpa using h1)
  have hr' : (List.range' 1 maxRounds).map Ev.roundStart
      = Ev.roundStart 1 :: (List.range' 2 (maxRounds - 1)).map Ev.roundStart := by
    have h1' : maxRounds = (maxRounds - 1) + 1 := by omega
    rw [h1', List.range'_succ]
    simp
  rw [hr']
  simp at hrest
  simp only [runRound] at hrest
  split <;> simp [isRoundStartEv, runRound, hrr, hrest]

/-- C3: round 1 with zero successful results terminates the session at
the first-round warning; a later round with zero results (but prior
results) emits its warning, no round is started twice (the failed round
is not retried), and the conclusion phase is still reached. -/
theorem C3_round_failure_policy (stockCode stockName : String) (actors : List Assignment)
    (maxRounds : Nat) (outcome : Nat → Nat → Option ActorRes) (cresp : Nat → ApiResp)
    (co : ConclOutcome) (hmr : 1 ≤ maxRounds)
    (houtcome : ∀ n i r, outcome n i = some r →
      r.messages.filter isRoundStartEv = []) :
    ((runRound outcome (activeOf actors) 1).2 = [] →
      analyzeStock stockCode stockName actors maxRounds outcome cresp co =
        (if actors.isEmpty then [Ev.errorNoActors] else [Ev.startInfo stockName stockCode])
          ++ Ev.roundStart 1 :: ((runRound outcome (activeOf actors) 1).1
          ++ [Ev.firstRoundNoResults])) ∧
    ((runRound outcome (activeOf actors) 1).2 ≠ [] →
      ((analyzeStock stockCode stockName actors maxRounds outcome cresp co).filter
          isRoundStartEv = (List.range' 1 maxRounds).map Ev.roundStart) ∧
      Ev.conclusionGenerationStart ∈
        analyzeStock stockCode stockName actors maxRounds outcome cresp co ∧
      (∀ m, 2 ≤ m → m ≤ maxRounds → (runRound outcome (activeOf actors) m).2 = [] →
        Ev.laterRoundNoResults m ∈
          analyzeStock stockCode stockName actors maxRounds outcome cresp co)) := by
  constructor
  · intro h1
    have hd : ¬(maxRounds < 1) := by omega
    rw [analyzeStock.eq_def, roundLoop]
    simp [hd, h1]
  · intro h1
    obtain ⟨hearly, hne⟩ := roundLoop_start outcome (activeOf actors) maxRounds "" hmr h1
    have hisE : (roundLoop outcome (activeOf actors) maxRounds 1 [] "").2.1.isEmpty = false := by
      cases hL : (roundLoop outcome (activeOf actors) maxRounds 1 [] "").2.1 with
      | nil => exact absurd hL hne
      | cons a t => rfl
    have hstarts := roundLoop_roundStarts_start outcome (activeOf actors) maxRounds "" hmr h1 houtcome
    refine ⟨?_, ?_, ?_⟩
    · rw [analyzeStock.eq_def]
      rw [hearly, hisE]
      cases co with
      | finished fuel =>
          have hgc := genConclusion_no_roundStart cresp true
            (roundLoop outcome (activeOf actors) maxRounds 1 [] "").2.1.length fuel
            (conclusionModelOf actors) 0 0 (-1)
          simp only [Bool.false_eq_true, if_false, Bool.not_false, if_true]
          simp [List.filter_append, hstarts, hgc, isRoundStartEv]
          split <;> simp [isRoundStartEv]
      | timedOut fuel k =>
          have hgc := genConclusion_no_roundStart cresp true
            (roundLoop outcome (activeOf actors) maxRounds 1 [] "").2.1.length fuel
            (conclusionModelOf actors) 0 0 (-1)
          simp only [Bool.false_eq_true, if_false, Bool.not_false, if_true]
          simp [List.filter_append, hstarts, filter_take_nil _ _ k hgc, isRoundStartEv]
          split <;> simp [isRoundStartEv]
    · rw [analyzeStock.eq_def]
      rw [hearly, hisE]
      cases co <;> simp
    · intro m hm2 hmm hm
      have hw := roundLoop_mem_warning_start outcome (activeOf actors) maxRounds "" hmr h1 m hm2 hmm hm
      rw [analyzeStock.eq_def]
      rw [hearly, hisE]
      cases co <;> simp [hw]


/-- Witness for C3: one actor, three rounds, round 2 times out, applied
to `C3_round_failure_policy`. -/
theorem C3_round_failure_policy_witness :
    (((runRound (fun n _ => if n == 2 then none else some (okActorRes "A" "m" "X"))
        (activeOf [⟨"A", "m"⟩]) 1).2 = []) →
      analyzeStock "000001" "X" [⟨"A", "m"⟩] 3
          (fun n _ => if n == 2 then none else some (okActorRes "A" "m" "X"))
          (fun _ => .ok "C") (.finished 1) =
        (if ([⟨"A", "m"⟩] : List Assignment).isEmpty then [Ev.errorNoActors]
          else [Ev.startInfo "X" "000001"])
          ++ Ev.roundStart 1 :: ((runRound
                (fun n _ => if n == 2 then none else some (okActorRes "A" "m" "X"))
                (activeOf [⟨"A", "m"⟩]) 1).1
          ++ [Ev.firstRoundNoResults])) ∧
    ((runRound (fun n _ => if n == 2 then none else some (okActorRes "A" "m" "X"))
        (activeOf [⟨"A", "m"⟩]) 1).2 ≠ [] →
      ((analyzeStock "000001" "X" [⟨"A", "m"⟩] 3
          (fun n _ => if n == 2 then none else some (okActorRes "A" "m" "X"))
          (fun _ => .ok "C") (.finished 1)).filter isRoundStartEv
        = (List.range' 1 3).map Ev.roundStart) ∧
      Ev.conclusionGenerationStart ∈ analyzeStock "000001" "X" [⟨"A", "m"⟩] 3
          (fun n _ => if n == 2 then none else some (okActorRes "A" "m" "X"))
          (fun _ => .ok "C") (.finished 1) ∧
      (∀ m, 2 ≤ m → m ≤ 3 →
        (runRound (fun n _ => if n == 2 then none else some (okActorRes "A" "m" "X"))
          (activeOf [⟨"A", "m"⟩]) m).2 = [] →
        Ev.laterRoundNoResults m ∈ analyzeStock "000001" "X" [⟨"A", "m"⟩] 3
          (fun n _ => if n == 2 then none else some (okActorRes "A" "m" "X"))
          (fun _ => .ok "C") (.finished 1))) :=
  C3_round_failure_policy "000001" "X" [⟨"A", "m"⟩] 3 _ _ (.finished 1) (by norm_num)
    (by intro n i r h
        by_cases h2 : (n == 2) = true
        · simp [h2] at h
        · simp [h2] at h
          rw [← h]
          decide)

/-- C3 (counterexample to "continues directly to Conclusion"): with
`maxRounds = 3` and round 2 producing zero results, the warning for
round 2 is followed by round 3 being started — the orchestrator
continues with the remaining rounds, it does not go directly to the
conclusion phase. -/
theorem C3_failed_round_not_followed_by_conclusion :
    Ev.laterRoundNoResults 2 ∈ analyzeStock "000001" "X" [⟨"A", "m"⟩] 3
        (fun n _ => if n == 2 then none else some (okActorRes "A" "m" "X"))
        (fun _ => .ok "C") (.finished 1) ∧
    Ev.roundStart 3 ∈ analyzeStock "000001" "X" [⟨"A", "m"⟩] 3
        (fun n _ => if n == 2 then none else some (okActorRes "A" "m" "X"))
        (fun _ => .ok "C") (.finished 1) := by
  have hg : ∀ (n : Nat) (cm : Option String),
      genConclusion 1 (fun _ => .ok "C") true n cm 0 0 (-1)
        = ([.conclusionStart, .conclusionResult "C" (resolveConclusionModel cm),
            .conclusionComplete n], true) := fun n cm => rfl
  rw [analyzeStock.eq_def]
  rw [roundLoop, roundLoop, roundLoop, roundLoop]
  simp [activeOf, conclusionModelOf, okActorRes, contentTruthy, histUpdate,
    newOpinions, fmtOpinion, resolveConclusionModel, runRound, runRoundAux, hg]


/-- C9: "The conversation transcript is append-only within a session:
for every round n < maxRounds, the transcript text visible to round n+1
is a superset by concatenation of the transcript visible to round n
(round n's results are appended, nothing is removed or truncated)."
`historyAt rounds n` is the history after `n` applications of the
update at analyzer.py lines 132-142 — the text visible to round
`n + 1`; each further round appends a suffix. -/
theorem C9_transcript_append_only (rounds : Nat → List ActorRes) (n : Nat) :
    ∃ s, historyAt rounds (n + 1) = historyAt rounds n ++ s := by
  cases n with
  | zero => exact ⟨historyAt rounds 1, by simp [historyAt]⟩
  | succ k =>
      refine ⟨"\n\n" ++ newOpinions (k + 2) (rounds (k + 2)), ?_⟩
      rw [historyAt]
      rw [histUpdate]
      simp [String.append_assoc]


/-! ## Rate-limiter timing (C7) -/

/-- A rate-limited call sequence started after a grant at time `t`
finishes no earlier than `t` plus one full interval per call. -/
theorem runCalls_lb_some (ds : List ℚ) (hds : ∀ d ∈ ds, 0 ≤ d) :
    ∀ (now t : ℚ), t ≤ now →
      t + (ds.length : ℚ) * REQUEST_INTERVAL ≤
        runCalls (ds.map fun d => (CallKind.actorCall, d)) now (some t) := by
  induction ds with
  | nil =>
      intro now t ht
      simpa using ht
  | cons d rest ih =>
      intro now t ht
      have hd : 0 ≤ d := hds d (by simp)
      have hrest : ∀ x ∈ rest, 0 ≤ x := fun x hx => hds x (by simp [hx])
      rw [List.map_cons, runCalls]
      have hI : REQUEST_INTERVAL = 20 := by norm_num [REQUEST_INTERVAL, REQUEST_LIMIT]
      have hg : t + REQUEST_INTERVAL ≤ now + d + rateWait (now + d) (some t) := by
        rw [rateWait]
        split <;> (rename_i hc; rw [hI] at *; linarith)
      have := ih hrest (now + d + rateWait (now + d) (some t))
        (now + d + rateWait (now + d) (some t)) le_rfl
      calc t + ((rest.length + 1 : ℕ) : ℚ) * REQUEST_INTERVAL
          = (t + REQUEST_INTERVAL) + (rest.length : ℚ) * REQUEST_INTERVAL := by
            push_cast; ring
        _ ≤ (now + d + rateWait (now + d) (some t)) + (rest.length : ℚ) * REQUEST_INTERVAL := by
            linarith
        _ ≤ _ := by
            have h2 := ih hrest (now + d + rateWait (now + d) (some t))
              (now + d + rateWait (now + d) (some t)) le_rfl
            linarith

/-- C7 (amended): every `process_actor_analysis` call acquires the
shared rate limiter whose interval is `60 / REQUEST_LIMIT = 20` seconds,
so N sequential actor-analysis calls take at least `(N-1) * interval`
seconds.  (The conclusion-synthesis call performs no acquisition — see
the counterexample — so the original claim fails for mixed sequences.) -/
theorem C7_actor_calls_rate_limited (ds : List ℚ) (hds : ∀ d ∈ ds, 0 ≤ d) :
    ((ds.length : ℚ) - 1) * REQUEST_INTERVAL ≤
      minElapsed (ds.map fun d => (CallKind.actorCall, d)) := by
  have hI : REQUEST_INTERVAL = 20 := by norm_num [REQUEST_INTERVAL, REQUEST_LIMIT]
  cases ds with
  | nil =>
      rw [minElapsed]
      simp [runCalls, hI]
  | cons d rest =>
      rw [minElapsed, List.map_cons, runCalls]
      have hd : 0 ≤ d := hds d (by simp)
      have hrest : ∀ x ∈ rest, 0 ≤ x := fun x hx => hds x (by simp [hx])
      have h2 := runCalls_lb_some rest hrest (0 + d + rateWait (0 + d) none)
        (0 + d + rateWait (0 + d) none) le_rfl
      have hw : rateWait (0 + d) none = 0 := by rw [rateWait]
      rw [hw] at h2 ⊢
      simp only [List.length_cons]
      push_cast
      have heq : ((rest.length : ℚ) + 1 - 1) * REQUEST_INTERVAL
          = (rest.length : ℚ) * REQUEST_INTERVAL := by ring
      rw [heq]
      linarith

/-- Witness for C7 (amended): three back-to-back actor calls take at
least 40 seconds, applied to `C7_actor_calls_rate_limited`. -/
theorem C7_actor_calls_rate_limited_witness :
    ((([0, 0, 0] : List ℚ).length : ℚ) - 1) * REQUEST_INTERVAL ≤
      minElapsed (([0, 0, 0] : List ℚ).map fun d => (CallKind.actorCall, d)) :=
  C7_actor_calls_rate_limited [0, 0, 0]
    (by intro d hd; simp at hd; simp [hd])

/-- C7 (counterexample): `generate_conclusion` performs no rate-limiter
acquisition, so the claimed bound "N sequential external calls take at
least (N-1) * interval" fails for an actor call followed by a
conclusion call: the enforced elapsed time is 0 < 20. -/
theorem C7_conclusion_bypasses_limiter :
    minElapsed [(CallKind.actorCall, 0), (CallKind.conclusionCall, 0)] = 0 ∧
    ¬(((2 : ℚ) - 1) * REQUEST_INTERVAL ≤
        minElapsed [(CallKind.actorCall, 0), (CallKind.conclusionCall, 0)]) := by
  have h0 : minElapsed [(CallKind.actorCall, 0), (CallKind.conclusionCall, 0)] = 0 := by
    rw [minElapsed, runCalls]
    rw [runCalls, runCalls]
    simp [rateWait]
  refine ⟨h0, ?_⟩
  rw [h0]
  norm_num [REQUEST_INTERVAL, REQUEST_LIMIT]


/-! ## ProgressManager fan-out (C8) -/

/-- The delivery count through `sseTargets` agrees with counting in the
raw stored list (an empty stored list delivers to nobody). -/
theorem count_sseTargets (m : PM) (t : String) (q : Nat) :
    (sseTargets m t).count q = ((m.sse t).getD []).count q := by
  rw [sseTargets]
  cases h : m.sse t with
  | none => simp
  | some qs =>
      cases qs with
      | nil => simp
      | cons a l => simp

/-- One operation moves the delivery count and the registered WebSocket
exactly as the history-side bookkeeping does. -/
theorem applyOp_inv (m : PM) (op : PMOp) (t : String) (q : Nat) :
    (sseTargets (applyOp m op) t).count q
        = sseCountStep t q ((sseTargets m t).count q) op ∧
    wsTarget (applyOp m op) t = wsRegStep t (wsTarget m t) op := by
  cases op with
  | addSse t' q' =>
      refine ⟨?_, ?_⟩
      · rw [count_sseTargets, count_sseTargets]
        by_cases ht : t' = t
        · subst ht
          simp [applyOp, addSseClient, sseCountStep, List.count_append]
          by_cases hq : q' = q
          · subst hq; simp
          · have hq2 : ¬(q = q') := fun hh => hq hh.symm
            simp [hq, hq2, List.count_singleton]
        · have ht2 : ¬(t = t') := fun hh => ht hh.symm
          simp [applyOp, addSseClient, sseCountStep, ht, ht2]
      · by_cases ht : t' = t
        · subst ht; simp [applyOp, addSseClient, wsTarget, wsRegStep]
        · simp [applyOp, addSseClient, wsTarget, wsRegStep]
  | removeSse t' q' =>
      refine ⟨?_, ?_⟩
      · rw [count_sseTargets, count_sseTargets]
        cases h : m.sse t' with
        | none =>
            by_cases ht : t' = t
            · subst ht
              simp [applyOp, removeSseClient, h, sseCountStep]
            · have ht2 : ¬(t = t') := fun hh => ht hh.symm
              simp [applyOp, removeSseClient, h, sseCountStep, ht]
        | some qs =>
            have hmem : qs.contains q' = true ↔ q' ∈ qs := by
              simp [List.contains]
            by_cases ht : t' = t
            · subst ht
              by_cases hc : qs.contains q' = true
              · have hq'mem : q' ∈ qs := hmem.mp hc
                by_cases he : (qs.erase q').isEmpty = true
                · have hz : (qs.erase q').count q = 0 := by
                    rw [List.isEmpty_iff] at he
                    simp [he]
                  rw [List.count_erase] at hz
                  simp only [applyOp, removeSseClient, h, hc, he, if_true,
                    sseCountStep, beq_self_eq_true, Bool.true_and, Option.getD_some]
                  simp [hq'mem]
                  by_cases hq : q' = q
                  · subst hq
                    have hpos : 0 < qs.count q' := List.count_pos_iff.mpr hq'mem
                    simp [hq'mem] at hz ⊢
                    omega
                  · have hb : (q' == q) = false := by simp [hq]
                    simp [hb, hq, hq'mem] at hz ⊢
                    omega
                · simp only [applyOp, removeSseClient, h, hc, he, if_true,
                    Bool.false_eq_true, if_false, sseCountStep, beq_self_eq_true,
                    Bool.true_and, Option.getD_some]
                  simp [hq'mem, he]
                  rw [List.count_erase]
                  by_cases hq : q' = q
                  · subst hq
                    have hpos : 0 < qs.count q' := List.count_pos_iff.mpr hq'mem
                    simp [hpos, List.count_pos_iff.mp hpos]
                  · have hb : (q' == q) = false := by simp [hq]
                    simp [hb, hq]
              · have hnm : q' ∉ qs := fun hm => hc (hmem.mpr hm)
                have hz : qs.count q' = 0 := List.count_eq_zero.mpr hnm
                simp only [applyOp, removeSseClient, h, sseCountStep,
                  beq_self_eq_true, Bool.true_and, Option.getD_some]
                simp [hnm, h]
                by_cases hq : q' = q
                · subst hq
                  simp [hz, hnm]
                · simp [hq]
            · have ht2 : ¬(t = t') := fun hh => ht hh.symm
              by_cases hc : qs.contains q' = true
              · have hq'mem : q' ∈ qs := hmem.mp hc
                by_cases he : (qs.erase q').isEmpty = true
                · simp [applyOp, removeSseClient, h, hq'mem, he, sseCountStep,
                    ht, ht2]
                · simp [applyOp, removeSseClient, h, hq'mem, he, sseCountStep,
                    ht, ht2]
              · have hnm : q' ∉ qs := fun hm => hc (hmem.mpr hm)
                simp [applyOp, removeSseClient, h, hnm, sseCountStep, ht]
      · cases h : m.sse t' with
        | none => simp [applyOp, removeSseClient, h, wsTarget, wsRegStep]
        | some qs =>
            by_cases hc : q' ∈ qs
            · by_cases he : (qs.erase q').isEmpty = true
              · simp [applyOp, removeSseClient, h, hc, he, wsTarget, wsRegStep]
              · simp [applyOp, removeSseClient, h, hc, he, wsTarget, wsRegStep]
            · simp [applyOp, removeSseClient, h, hc, wsTarget, wsRegStep]
  | connectW t' w =>
      refine ⟨?_, ?_⟩
      · rw [count_sseTargets, count_sseTargets]
        simp [applyOp, connectWs, sseCountStep]
      · by_cases ht : t' = t
        · subst ht; simp [applyOp, connectWs, wsTarget, wsRegStep]
        · have ht2 : ¬(t = t') := fun hh => ht hh.symm
          simp [applyOp, connectWs, wsTarget, wsRegStep, ht, ht2]
  | disconnectW t' =>
      refine ⟨?_, ?_⟩
      · rw [count_sseTargets, count_sseTargets]
        simp [applyOp, disconnectWs, sseCountStep]
      · by_cases ht : t' = t
        · subst ht; simp [applyOp, disconnectWs, wsTarget, wsRegStep]
        · have ht2 : ¬(t = t') := fun hh => ht hh.symm
          simp [applyOp, disconnectWs, wsTarget, wsRegStep, ht, ht2]


/-- The correspondence survives an arbitrary operation history. -/
theorem runOps_inv (ops : List PMOp) (t : String) (q : Nat) :
    ∀ (m : PM) (c : Nat) (r : Option Nat),
      (sseTargets m t).count q = c → wsTarget m t = r →
      (sseTargets (ops.foldl applyOp m) t).count q = ops.foldl (sseCountStep t q) c ∧
      wsTarget (ops.foldl applyOp m) t = ops.foldl (wsRegStep t) r := by
  induction ops with
  | nil =>
      intro m c r h1 h2
      exact ⟨h1, h2⟩
  | cons op rest ih =>
      intro m c r h1 h2
      rw [List.foldl_cons, List.foldl_cons, List.foldl_cons]
      apply ih
      · rw [(applyOp_inv m op t q).1, h1]
      · rw [(applyOp_inv m op t q).2, h2]

/-- C8: "For every progress message published for a task id T, the
ProgressManager delivers it to every subscriber (WebSocket connection
or SSE queue) currently registered for T, and to no subscriber
registered for a different task id."  After any history of
subscribe/unsubscribe operations, a publication for task `t` reaches
each SSE queue exactly as many times as it is currently registered for
`t` (so never a queue registered only for other tasks), and reaches
exactly the WebSocket currently registered for `t` (registration being
computed from the history alone, independent of other tasks'
operations). -/
theorem C8_fanout_exact (ops : List PMOp) (t : String) (q : Nat) :
    (sseTargets (runOps ops) t).count q = sseRegCount ops t q ∧
    wsTarget (runOps ops) t = wsReg ops t := by
  have h := runOps_inv ops t q {} 0 none (by rfl) (by rfl)
  simpa [runOps, sseRegCount, wsReg] using h

end StockApp
